import Mathlib

/-!
Verification development for the CRONOS full-duplex speech-to-speech core.

This file shallowly embeds the frame-level VAD / barge-in state machine of
`src/sts_engine.py` (class `STSEngine`), the transcription gate of
`STSEngine._transcribe_async`, and the voice-input debounce layer and
interrupt handler of `src/sts_orchestrator.py` (class `CronoSTSOrchestrator`).

Modelling conventions:
* Machine floats are modelled as exact rationals (`ℚ`); all constants from the
  source are written as exact rationals (e.g. `1.8 = 9/5`).
* `time.time()` is modelled by an explicit `now : ℚ` argument to each
  operation that reads the clock.
* An audio frame is represented by its RMS energy (a `ℚ`): the engine never
  inspects a frame's samples beyond its energy, it only stores frames and
  counts them, so the energy value serves as the frame stand-in.
* Side effects (callbacks, executor submissions) are modelled as an explicit
  list of `EngineOut` events returned by each step.
* Python's `deque(maxlen=MAX_RECORDING_FRAMES)` is modelled by `dequeAppend`,
  which drops the oldest element when the deque is full.
* Debug-only, write-only fields of the Python class (`last_energy`,
  `_total_frames`, `_detected_speech_count`, `running`) and the thread /
  stream handles are omitted: no control flow modelled here reads them.
* Leading underscores of Python attribute names are dropped
  (`_is_recording` becomes `is_recording`, etc.).
-/

/-- Constant from sts_engine.py: `SILENCE_THRESHOLD` (env default "250"),
the base energy threshold. -/
def SILENCE_THRESHOLD : ℚ := 250

/-- Constant from sts_engine.py: `SPEECH_START_FRAMES` (env default "2"),
frames to confirm speech start. -/
def SPEECH_START_FRAMES : ℕ := 2

/-- Constant from sts_engine.py: `SILENCE_END_FRAMES` (env default "16"),
frames of silence to confirm end of speech. -/
def SILENCE_END_FRAMES : ℕ := 16

/-- Constant from sts_engine.py: `MAX_RECORDING_FRAMES = 500`. -/
def MAX_RECORDING_FRAMES : ℕ := 500

/-- Constant from sts_engine.py: `BARGE_IN_GUARD_MS = 250`, expressed in
seconds as used by the code (`BARGE_IN_GUARD_MS / 1000.0`). -/
def BARGE_IN_GUARD_SEC : ℚ := 1/4

/-- Constant from sts_engine.py: `BARGE_IN_COOLDOWN_MS = 350`, expressed in
seconds as used by the code (`BARGE_IN_COOLDOWN_MS / 1000.0`). -/
def BARGE_IN_COOLDOWN_SEC : ℚ := 7/20

/-- Constant from sts_engine.py: `BARGE_IN_MULTIPLIER = 1.6`. -/
def BARGE_IN_MULTIPLIER : ℚ := 8/5

/-- Constant from sts_engine.py: `BARGE_IN_DELTA = 200`. -/
def BARGE_IN_DELTA : ℚ := 200

/-- Constant from sts_engine.py: `TTS_BASELINE_EMA_ALPHA = 0.15`. -/
def TTS_BASELINE_EMA_ALPHA : ℚ := 3/20

/-- Constant from sts_engine.py: `NOISE_FLOOR_EMA_ALPHA = 0.08`. -/
def NOISE_FLOOR_EMA_ALPHA : ℚ := 2/25

/-- Constant from sts_engine.py: `NOISE_FLOOR_MULTIPLIER = 1.8`. -/
def NOISE_FLOOR_MULTIPLIER : ℚ := 9/5

/-- Constant from sts_engine.py: `self._echo_threshold_boost = 200`,
set once in `STSEngine.__init__` and never mutated. -/
def ECHO_THRESHOLD_BOOST : ℚ := 200

/-- Constant from sts_engine.py: `NOISE_FLOOR_MARGIN = 40`. -/
def NOISE_FLOOR_MARGIN : ℚ := 40

/-- Observable side effects of one engine operation: the `on_speech_start`
callback submission, the `on_interrupt` callback fired by
`request_interrupt`, the submission of a finished buffer to
`_transcribe_async`, and the silent discard of a too-short buffer. -/
inductive EngineOut
  | speechStart
  | interruptCb
  | dispatch (buf : List ℚ)
  | discard
deriving DecidableEq, Repr

/-- State of `STSEngine` (src/sts_engine.py, `__init__`), restricted to the
fields read or written by the VAD / barge-in / recording logic. -/
structure STSEngine where
  is_speaking : Bool
  is_listening : Bool
  interrupt_requested : Bool
  tts_audio_playing : Bool
  audio_buffer : List ℚ
  speech_frames : ℕ
  silence_frames : ℕ
  is_recording : Bool
  tts_energy_ema : ℚ
  tts_energy_initialized : Bool
  tts_started_at : ℚ
  ignore_until : ℚ
  noise_floor_ema : ℚ
  noise_floor_initialized : Bool
deriving DecidableEq, Repr

/-- The state built by `STSEngine.__init__`. -/
def initEngine : STSEngine where
  is_speaking := false
  is_listening := true
  interrupt_requested := false
  tts_audio_playing := false
  audio_buffer := []
  speech_frames := 0
  silence_frames := 0
  is_recording := false
  tts_energy_ema := 0
  tts_energy_initialized := false
  tts_started_at := 0
  ignore_until := 0
  noise_floor_ema := 0
  noise_floor_initialized := false

/-- Append on a `deque(maxlen=MAX_RECORDING_FRAMES)`: when the deque is
full, the oldest (leftmost) element is dropped. -/
def dequeAppend (buf : List ℚ) (f : ℚ) : List ℚ :=
  if MAX_RECORDING_FRAMES ≤ buf.length then buf.drop 1 ++ [f] else buf ++ [f]

/-- `STSEngine._get_effective_threshold`: VAD threshold with the noise-floor
adaptation and the echo-cancellation boost during TTS. -/
def effectiveThreshold (s : STSEngine) : ℚ :=
  let base : ℚ := SILENCE_THRESHOLD
  let base :=
    if s.noise_floor_initialized = true then
      max base (s.noise_floor_ema * NOISE_FLOOR_MULTIPLIER + NOISE_FLOOR_MARGIN)
    else base
  if s.is_speaking = true then base + ECHO_THRESHOLD_BOOST else base

/-- `STSEngine.get_vad_threshold`, which just returns
`_get_effective_threshold()`. -/
def getVadThreshold (s : STSEngine) : ℚ :=
  effectiveThreshold s

/-- `STSEngine._is_barge_in_speech(energy, base_threshold)`: detect user
speech while TTS is playing using the dynamic TTS-baseline EMA.  Python's
truthiness test `if self._tts_started_at` is modelled as `≠ 0`.  Returns the
boolean result together with the updated state (the EMA update is a side
effect of the call). -/
def isBargeInSpeech (s : STSEngine) (now energy baseThreshold : ℚ) :
    Bool × STSEngine :=
  if s.tts_started_at ≠ 0 ∧ now - s.tts_started_at < BARGE_IN_GUARD_SEC then
    (false, s)
  else
    let s :=
      if s.tts_energy_initialized = false then
        { s with tts_energy_ema := energy, tts_energy_initialized := true }
      else
        { s with tts_energy_ema :=
            (1 - TTS_BASELINE_EMA_ALPHA) * s.tts_energy_ema
              + TTS_BASELINE_EMA_ALPHA * energy }
    let dynamicThreshold :=
      max baseThreshold (s.tts_energy_ema * BARGE_IN_MULTIPLIER + BARGE_IN_DELTA)
    (decide (energy > dynamicThreshold), s)

/-- `STSEngine.set_speaking(speaking)`. -/
def setSpeaking (s : STSEngine) (now : ℚ) (speaking : Bool) : STSEngine :=
  let s := { s with is_speaking := speaking, tts_audio_playing := speaking }
  if speaking = true then
    { s with tts_started_at := now, tts_energy_initialized := false }
  else
    { s with tts_energy_initialized := false, tts_energy_ema := 0,
             ignore_until := now + BARGE_IN_COOLDOWN_SEC }

/-- `STSEngine.request_interrupt()`: sets the flag and fires the
`on_interrupt` callback. -/
def requestInterrupt (s : STSEngine) : STSEngine × List EngineOut :=
  ({ s with interrupt_requested := true }, [EngineOut.interruptCb])

/-- `STSEngine.set_listening(listening)`. -/
def setListening (s : STSEngine) (listening : Bool) : STSEngine :=
  let s := { s with is_listening := listening }
  if s.is_listening = false then
    { s with is_recording := false, audio_buffer := [],
             speech_frames := 0, silence_frames := 0 }
  else s

/-- The reset performed by `_process_frame` on its three early-return paths
(listening disabled, post-TTS cooldown, TTS playing with no barge-in): stop
recording, clear the buffer if a recording was in progress, zero both
counters. -/
def clearVadState (s : STSEngine) : STSEngine :=
  { s with is_recording := false,
           audio_buffer := if s.is_recording = true then [] else s.audio_buffer,
           speech_frames := 0, silence_frames := 0 }

/-- `STSEngine._finish_recording()`: stop recording, reset both counters,
dispatch the concatenated buffer to `_transcribe_async` when it holds more
than 5 frames (otherwise discard it as noise), and clear the buffer. -/
def finishRecording (s : STSEngine) : STSEngine × List EngineOut :=
  let s := { s with is_recording := false, speech_frames := 0, silence_frames := 0 }
  let outs :=
    if 5 < s.audio_buffer.length then [EngineOut.dispatch s.audio_buffer]
    else [EngineOut.discard]
  ({ s with audio_buffer := [] }, outs)

/-- The adaptive noise-floor update at the top of `_process_frame`: only
while idle (no TTS, not recording); the first sample initializes the EMA
directly, later samples blend only when `energy <= SILENCE_THRESHOLD * 1.2`. -/
def updateNoiseFloor (s : STSEngine) (energy : ℚ) : STSEngine :=
  if s.is_speaking = false ∧ s.is_recording = false then
    if s.noise_floor_initialized = false then
      { s with noise_floor_ema := energy, noise_floor_initialized := true }
    else if energy ≤ SILENCE_THRESHOLD * (6/5) then
      { s with noise_floor_ema :=
          (1 - NOISE_FLOOR_EMA_ALPHA) * s.noise_floor_ema
            + NOISE_FLOOR_EMA_ALPHA * energy }
    else s
  else s

/-- The per-frame speech classification of `_process_frame`: barge-in
detection while TTS plays, plain threshold comparison otherwise.  Returns
the classification and the (possibly EMA-updated) state. -/
def classifyAndUpdate (s : STSEngine) (now energy threshold : ℚ) :
    Bool × STSEngine :=
  if s.is_speaking = true then isBargeInSpeech s now energy threshold
  else (decide (energy > threshold), s)

/-- The not-recording half of `_process_frame` for a speech-classified
frame: bump the confirmation counter and, on reaching
`SPEECH_START_FRAMES`, start recording (clear the buffer, append the current
frame, request an interrupt when TTS is playing, fire `on_speech_start`). -/
def startOrCount (s : STSEngine) (frame : ℚ) : STSEngine × List EngineOut :=
  let n := s.speech_frames + 1
  if SPEECH_START_FRAMES ≤ n then
    let s := { s with speech_frames := n, is_recording := true,
                      silence_frames := 0, audio_buffer := dequeAppend [] frame }
    if s.is_speaking = true then
      ({ s with interrupt_requested := true },
        [EngineOut.interruptCb, EngineOut.speechStart])
    else (s, [EngineOut.speechStart])
  else ({ s with speech_frames := n }, [])

/-- The recording half of `_process_frame`: always append the frame; a
speech frame resets the silence counter, a silence frame bumps it and
finalizes at `SILENCE_END_FRAMES`; independently, reaching
`MAX_RECORDING_FRAMES` forces the finalize path. -/
def recordFrame (s : STSEngine) (frame : ℚ) (isSpeech : Bool) :
    STSEngine × List EngineOut :=
  let s1 := { s with audio_buffer := dequeAppend s.audio_buffer frame }
  let r :=
    if isSpeech = true then ({ s1 with silence_frames := 0 }, ([] : List EngineOut))
    else
      let s2 := { s1 with silence_frames := s1.silence_frames + 1 }
      if SILENCE_END_FRAMES ≤ s2.silence_frames then finishRecording s2
      else (s2, [])
  if MAX_RECORDING_FRAMES ≤ r.1.audio_buffer.length then
    let f := finishRecording r.1
    (f.1, r.2 ++ f.2)
  else r

/-- `STSEngine._process_frame(frame, energy, threshold)`.  Python's
truthiness test `if self._ignore_until` is modelled as `≠ 0`. -/
def processFrame (s : STSEngine) (now energy threshold : ℚ) :
    STSEngine × List EngineOut :=
  if s.is_listening = false then (clearVadState s, [])
  else if s.ignore_until ≠ 0 ∧ now < s.ignore_until then (clearVadState s, [])
  else
    let s1 := updateNoiseFloor s energy
    let c := classifyAndUpdate s1 now energy threshold
    if c.2.is_speaking = true ∧ c.1 = false then (clearVadState c.2, [])
    else if c.2.is_recording = false then
      if c.1 = true then startOrCount c.2 energy
      else ({ c.2 with speech_frames := c.2.speech_frames - 1 }, [])
    else recordFrame c.2 energy c.1

/-- One iteration of the `_audio_loop` body for a captured frame of energy
`energy`: the threshold is computed by `_get_effective_threshold()` before
`_process_frame` runs (so it reflects the pre-frame noise floor). -/
def engineStep (s : STSEngine) (now energy : ℚ) : STSEngine × List EngineOut :=
  processFrame s now energy (effectiveThreshold s)

/-- The speech classification `_process_frame` computes for a frame arriving
in state `s`: `_is_barge_in_speech` when TTS plays, otherwise the plain
threshold comparison (the noise-floor update never runs while
`is_speaking`, so using the pre-frame state here agrees with the internal
computation). -/
def speechClassified (s : STSEngine) (now energy : ℚ) : Bool :=
  if s.is_speaking = true then
    (isBargeInSpeech s now energy (effectiveThreshold s)).1
  else decide (energy > effectiveThreshold s)

/-- External events that touch the VAD state: a processed microphone frame
and the two public setters. -/
inductive EngineEvent
  | frame (now energy : ℚ)
  | speaking (now : ℚ) (b : Bool)
  | listening (b : Bool)
deriving DecidableEq, Repr

/-- Apply one event to the engine state (outputs dropped). -/
def engineEventStep (s : STSEngine) (ev : EngineEvent) : STSEngine :=
  match ev with
  | .frame now e => (engineStep s now e).1
  | .speaking now b => setSpeaking s now b
  | .listening b => setListening s b

/-- Run the engine over a list of events from state `s`. -/
def engineRun (s : STSEngine) (evs : List EngineEvent) : STSEngine :=
  evs.foldl engineEventStep s

/-- Run the audio loop over a list of `(now, energy)` frames from state `s`
(outputs dropped). -/
def frameRun (s : STSEngine) (es : List (ℚ × ℚ)) : STSEngine :=
  es.foldl (fun t p => (engineStep t p.1 p.2).1) s

/-- Run the audio loop over a list of `(now, energy)` frames, collecting
all emitted outputs in order. -/
def frameRunOuts (s : STSEngine) (es : List (ℚ × ℚ)) :
    STSEngine × List EngineOut :=
  es.foldl (fun acc p =>
    let r := engineStep acc.1 p.1 p.2
    (r.1, acc.2 ++ r.2)) (s, [])

/-- The state after the first `i` frames of `es` have been processed. -/
def stateAt (s : STSEngine) (es : List (ℚ × ℚ)) (i : ℕ) : STSEngine :=
  frameRun s (es.take i)

/-- Whether frame `i` of `es` is speech-classified when it is processed. -/
def speechAt (s : STSEngine) (es : List (ℚ × ℚ)) (i : ℕ) : Bool :=
  speechClassified (stateAt s es i) (es.getD i (0, 0)).1 (es.getD i (0, 0)).2

/-- Lengths of the buffers dispatched to transcription, in order. -/
def dispatchLens (outs : List EngineOut) : List ℕ :=
  outs.filterMap (fun o =>
    match o with
    | .dispatch b => some b.length
    | _ => none)

/-- Model of Python's `str.strip()` (no arguments: strip whitespace),
written by structural recursion on the character list so that concrete
scenario runs evaluate inside the kernel. -/
def strTrim (s : String) : String :=
  String.mk (((s.data.dropWhile Char.isWhitespace).reverse.dropWhile
    Char.isWhitespace).reverse)

/-- Helper for `strWords`: split the remaining characters at whitespace,
discarding empty pieces, with `acc` holding the current word reversed. -/
def wordsAux : List Char → List Char → List String
  | [], acc => if acc.isEmpty then [] else [String.mk acc.reverse]
  | c :: cs, acc =>
    if c.isWhitespace then
      if acc.isEmpty then wordsAux cs []
      else String.mk acc.reverse :: wordsAux cs []
    else wordsAux cs (c :: acc)

/-- Model of Python's `str.split()` (no arguments: split on whitespace
runs, dropping empty pieces). -/
def strWords (s : String) : List String := wordsAux s.data []

/-- Model of Python's `str.endswith(suffix)`. -/
def strEndsWith (s suffix : String) : Bool := suffix.data.isSuffixOf s.data

/-- Configuration of the voice-input debounce layer
(src/sts_orchestrator.py, `__init__`): `_debounce_window` (env default
"0.9"), `_debounce_short_window` (env default "1.6", used for short or
trailing fragments), `_debounce_max_parts` (env default "4"). -/
structure DebounceConfig where
  window : ℚ
  shortWindow : ℚ
  maxParts : ℕ
deriving DecidableEq, Repr

/-- The default debounce configuration of `CronoSTSOrchestrator`. -/
def defaultDebounceConfig : DebounceConfig where
  window := 9/10
  shortWindow := 8/5
  maxParts := 4

/-- Mutable debounce state: the pending fragment list
(`_voice_buffer_parts`) and the deadline of the currently scheduled
`_debounce_voice_flush` task, if one is pending (`_voice_debounce_task`). -/
structure DebounceState where
  parts : List String
  pendingDeadline : Option ℚ
deriving DecidableEq, Repr

/-- Classification used by `_enqueue_voice_input` to pick the window: at
most 3 whitespace-separated tokens, or a trailing-continuation marker. -/
def isShortOrTrailing (text : String) : Bool :=
  (strWords text).length ≤ 3 || strEndsWith text "..." || strEndsWith text "…"

/-- `CronoSTSOrchestrator._flush_voice_buffer`: join the pending fragments
with single spaces, clear the list, and forward the merged string unless it
is empty.  The scheduled task handle is not touched by a flush.  Returns the
new state and the list of strings forwarded to `_process_user_input`. -/
def flushVoiceBuffer (st : DebounceState) : DebounceState × List String :=
  if st.parts = [] then (st, [])
  else
    let merged := strTrim (String.intercalate " " st.parts)
    ({ st with parts := [] }, if merged = "" then [] else [merged])

/-- `CronoSTSOrchestrator._enqueue_voice_input(text)`: trim; drop empty
input; forward immediately when the debounce window is disabled; otherwise
buffer the fragment, flush at the max-parts cap, or (re)schedule the flush
timer for `now` plus the computed window (cancelling any previous timer). -/
def enqueueVoiceInput (cfg : DebounceConfig) (st : DebounceState)
    (now : ℚ) (raw : String) : DebounceState × List String :=
  let text := strTrim raw
  if text = "" then (st, [])
  else if cfg.window ≤ 0 then (st, [text])
  else
    let w := if isShortOrTrailing text then cfg.shortWindow else cfg.window
    let st := { st with parts := st.parts ++ [text] }
    if cfg.maxParts ≤ st.parts.length then flushVoiceBuffer st
    else ({ st with pendingDeadline := some (now + w) }, [])

/-- Deliver one arrival to the event loop: a pending `_debounce_voice_flush`
timer whose deadline has passed fires first (flushing the buffer), then the
fragment is enqueued. -/
def debounceArrive (cfg : DebounceConfig) (st : DebounceState)
    (now : ℚ) (text : String) : DebounceState × List String :=
  let fired :=
    match st.pendingDeadline with
    | some d =>
        if d ≤ now then flushVoiceBuffer { st with pendingDeadline := none }
        else (st, [])
    | none => (st, [])
  let r := enqueueVoiceInput cfg fired.1 now text
  (r.1, fired.2 ++ r.2)

/-- After the last arrival, a still-pending timer eventually fires and
flushes whatever is buffered. -/
def debounceFinish (st : DebounceState) : List String :=
  match st.pendingDeadline with
  | some _ => (flushVoiceBuffer { st with pendingDeadline := none }).2
  | none => []

/-- Run the debounce layer from state `st` over time-ordered arrivals,
collecting every string forwarded to `_process_user_input`. -/
def debounceRunFrom (cfg : DebounceConfig) (st : DebounceState) :
    List (ℚ × String) → List String
  | [] => debounceFinish st
  | a :: rest =>
      let r := debounceArrive cfg st a.1 a.2
      r.2 ++ debounceRunFrom cfg r.1 rest

/-- Run the debounce layer from the empty start state. -/
def debounceRun (cfg : DebounceConfig) (arrivals : List (ℚ × String)) :
    List String :=
  debounceRunFrom cfg ⟨[], none⟩ arrivals

/-- The fixed hallucination / filler set of `STSEngine._transcribe_async`. -/
def hallucinations : List String :=
  ["obrigado", "muito obrigado", "de nada", "valeu",
   "thank you", "thanks for watching", "you\u0027re welcome",
   "thanks", "bye", "tchau", "...", "[silncio]", "[pausa]"]

/-- The text filter of `STSEngine._transcribe_async` applied to a
successful provider response: strip, lower-case, drop exact members of the
hallucination set and results shorter than 2 characters; otherwise the text
is emitted through `on_speech_end`. -/
def transcriptionGateText (raw : String) : Option String :=
  let text := raw.trim.toLower
  if hallucinations.contains text || text.length < 2 then none
  else some text

/-- The observable outcome of `STSEngine._transcribe_async` as a function
of the transcription provider's response: the WAV encoding and the blocking
network call are abstracted into the `Except` argument; any provider
exception is caught, logged and dropped (no retry, no callback), modelled by
`none`. -/
def transcribeAsyncResult (result : Except Unit String) : Option String :=
  match result with
  | .error _ => none
  | .ok raw => transcriptionGateText raw

/-- State read by `CronoSTSOrchestrator._on_interrupt`: the last-interrupt
timestamp, the orchestrator's `_tts_active` flag and the engine's
`is_speaking` flag (src/sts_orchestrator.py). -/
structure OrchInterrupt where
  last_interrupt_at : ℚ
  tts_active : Bool
  engine_speaking : Bool
deriving DecidableEq, Repr

/-- Constant from sts_orchestrator.py: `self._interrupt_cooldown_sec = 1.2`. -/
def INTERRUPT_COOLDOWN_SEC : ℚ := 6/5

/-- Action taken by one `_on_interrupt` call. -/
inductive InterruptResult
  | cooldownIgnored
  | noop
  | stopSpeaking
deriving DecidableEq, Repr

/-- `CronoSTSOrchestrator._on_interrupt()`: ignore the call inside the
cooldown window; record the call time; return without stopping playback
unless something is actually playing (`_tts_active or
sts_engine.is_speaking`); otherwise call `stop_speaking()`. -/
def onInterrupt (o : OrchInterrupt) (now : ℚ) : OrchInterrupt × InterruptResult :=
  if now - o.last_interrupt_at < INTERRUPT_COOLDOWN_SEC then
    (o, InterruptResult.cooldownIgnored)
  else
    let o := { o with last_interrupt_at := now }
    if (o.tts_active || o.engine_speaking) = false then (o, InterruptResult.noop)
    else (o, InterruptResult.stopSpeaking)

/-- A quiet idle start state for concrete scenario runs: `initEngine` with
the adaptive noise floor already initialized (to 0), so that the effective
threshold is the static one and loud frames classify as speech. -/
def c4Start : STSEngine := { initEngine with noise_floor_initialized := true }

/-- The normal-turn scenario: 12 loud (energy 1000) frames followed by 16
silent (energy 0) frames. -/
def c4Frames : List (ℚ × ℚ) :=
  List.replicate 12 ((0 : ℚ), (1000 : ℚ)) ++ List.replicate 16 ((0 : ℚ), (0 : ℚ))

/-- Start state for the single-frame-abort counterexample: same quiet idle
state as `c4Start`. -/
def c1Start : STSEngine := { initEngine with noise_floor_initialized := true }

/-- Counterexample trace: two loud frames start a recording, then TTS
starts, then one frame arrives that does not clear the barge-in bar. -/
def c1Events : List EngineEvent :=
  [EngineEvent.frame 0 1000, EngineEvent.frame 0 1000,
   EngineEvent.speaking 10 true, EngineEvent.frame (101/10) 0]

/-- Counterexample state for the barge-in margin claim: TTS active for a
while (guard expired at `now = 2`), a tracked TTS baseline of 100, and a
large initialized noise floor so the effective base threshold is high. -/
def c3State : STSEngine :=
  { initEngine with is_speaking := true, tts_started_at := 1,
                    tts_energy_initialized := true, tts_energy_ema := 100,
                    noise_floor_initialized := true, noise_floor_ema := 500 }

/-- Witness state for the amended barge-in margin claim: TTS active, guard
expired at `now = 2`, tracked baseline 100, default base threshold. -/
def c3Wit : STSEngine :=
  { initEngine with is_speaking := true, tts_started_at := 1,
                    tts_energy_initialized := true, tts_energy_ema := 100 }

/-- Witness state for the effective-threshold claim. -/
def c5Wit : STSEngine :=
  { initEngine with noise_floor_initialized := true, noise_floor_ema := 100 }

/-- Witness state for the TTS-silence-abort claim: TTS active while a
5-frame recording is in progress. -/
def c7Wit : STSEngine :=
  { initEngine with is_speaking := true, is_recording := true,
                    audio_buffer := [7, 7, 7, 7, 7], speech_frames := 2,
                    silence_frames := 3 }

/-- Witness state for the interrupt no-op claim: nothing is playing. -/
def c10Wit : OrchInterrupt := ⟨0, false, false⟩

/-- The C8 debounce scenario: three short fragments arriving 200 ms apart. -/
def c8Arrivals : List (ℚ × String) :=
  [((0 : ℚ), "oi"), (1/5, "tudo"), (2/5, "bem?")]

/-- Conditions under which the frame-processing loop runs "quietly": the
mic is enabled, no post-TTS cooldown is pending, and TTS is inactive.
Under these conditions none of the early-return resets of `_process_frame`
can fire. -/
def quietState (s : STSEngine) : Prop :=
  s.is_listening = true ∧ s.ignore_until = 0 ∧ s.is_speaking = false

/-- A quiet state that is additionally idle: not recording, with a clean
speech-confirmation counter. -/
def quietIdle (s : STSEngine) : Prop :=
  quietState s ∧ s.is_recording = false ∧ s.speech_frames = 0

/-- The buffer-exclusivity invariant: the audio buffer is non-empty exactly
while a recording is in progress. -/
def bufferInv (s : STSEngine) : Prop :=
  s.audio_buffer ≠ [] ↔ s.is_recording = true

/-- The environment view of the engine state: the fields that a processed
frame never modifies. -/
def envOf (s : STSEngine) : Bool × ℚ × Bool :=
  (s.is_listening, s.ignore_until, s.is_speaking)

/-- Witness trace for the amended hysteresis claim: two loud frames from a
quiet idle start. -/
def c1WitFrames : List (ℚ × ℚ) := [((0 : ℚ), (1000 : ℚ)), (0, 1000)]

lemma dequeAppend_ne_nil (buf : List ℚ) (f : ℚ) : dequeAppend buf f ≠ [] := by
  unfold dequeAppend; split <;> simp

lemma dequeAppend_length (buf : List ℚ) (f : ℚ) :
    (dequeAppend buf f).length =
      if MAX_RECORDING_FRAMES ≤ buf.length then buf.length else buf.length + 1 := by
  unfold dequeAppend
  split
  · next h =>
    simp only [List.length_append, List.length_drop, List.length_singleton]
    unfold MAX_RECORDING_FRAMES at h
    omega
  · simp

lemma dequeAppend_nil (f : ℚ) : dequeAppend [] f = [f] := by
  unfold dequeAppend
  rw [if_neg] <;> simp [MAX_RECORDING_FRAMES]

lemma envOf_clearVadState (s : STSEngine) : envOf (clearVadState s) = envOf s := rfl

lemma envOf_finishRecording (s : STSEngine) :
    envOf (finishRecording s).1 = envOf s := rfl

lemma envOf_isBargeInSpeech (s : STSEngine) (now e th : ℚ) :
    envOf (isBargeInSpeech s now e th).2 = envOf s := by
  simp only [isBargeInSpeech]
  split_ifs <;> rfl

lemma envOf_classifyAndUpdate (s : STSEngine) (now e th : ℚ) :
    envOf (classifyAndUpdate s now e th).2 = envOf s := by
  simp only [classifyAndUpdate]
  split
  · exact envOf_isBargeInSpeech s now e th
  · rfl

lemma envOf_startOrCount (s : STSEngine) (f : ℚ) :
    envOf (startOrCount s f).1 = envOf s := by
  simp only [startOrCount]
  split_ifs <;> rfl

lemma envOf_recordFrame (s : STSEngine) (f : ℚ) (b : Bool) :
    envOf (recordFrame s f b).1 = envOf s := by
  simp only [recordFrame]
  split_ifs <;> rfl

lemma envOf_updateNoiseFloor (s : STSEngine) (e : ℚ) :
    envOf (updateNoiseFloor s e) = envOf s := by
  simp only [updateNoiseFloor]
  split_ifs <;> rfl

lemma envOf_fields {a b : STSEngine} (h : envOf a = envOf b) :
    a.is_listening = b.is_listening ∧ a.ignore_until = b.ignore_until ∧
      a.is_speaking = b.is_speaking := by
  unfold envOf at h
  simp only [Prod.mk.injEq] at h
  exact ⟨h.1, h.2.1, h.2.2⟩

lemma envOf_engineStep (s : STSEngine) (now e : ℚ) :
    envOf (engineStep s now e).1 = envOf s := by
  simp only [engineStep, processFrame]
  split_ifs <;>
    first
      | rfl
      | exact (envOf_classifyAndUpdate _ _ _ _).trans (envOf_updateNoiseFloor _ _)
      | (rw [envOf_startOrCount]
         exact (envOf_classifyAndUpdate _ _ _ _).trans (envOf_updateNoiseFloor _ _))
      | (rw [envOf_recordFrame]
         exact (envOf_classifyAndUpdate _ _ _ _).trans (envOf_updateNoiseFloor _ _))

lemma updateNoiseFloor_proj (s : STSEngine) (e : ℚ) :
    (updateNoiseFloor s e).is_recording = s.is_recording ∧
    (updateNoiseFloor s e).speech_frames = s.speech_frames ∧
    (updateNoiseFloor s e).silence_frames = s.silence_frames ∧
    (updateNoiseFloor s e).audio_buffer = s.audio_buffer ∧
    (updateNoiseFloor s e).is_speaking = s.is_speaking := by
  simp only [updateNoiseFloor]
  split_ifs <;> exact ⟨rfl, rfl, rfl, rfl, rfl⟩

lemma updateNoiseFloor_of_rec (s : STSEngine) (e : ℚ)
    (h : s.is_recording = true) : updateNoiseFloor s e = s := by
  simp only [updateNoiseFloor]
  rw [if_neg]
  simp [h]

lemma updateNoiseFloor_of_speaking (s : STSEngine) (e : ℚ)
    (h : s.is_speaking = true) : updateNoiseFloor s e = s := by
  simp only [updateNoiseFloor]
  rw [if_neg]
  simp [h]

lemma isBargeInSpeech_proj (s : STSEngine) (now e th : ℚ) :
    (isBargeInSpeech s now e th).2.is_recording = s.is_recording ∧
    (isBargeInSpeech s now e th).2.speech_frames = s.speech_frames ∧
    (isBargeInSpeech s now e th).2.silence_frames = s.silence_frames ∧
    (isBargeInSpeech s now e th).2.audio_buffer = s.audio_buffer ∧
    (isBargeInSpeech s now e th).2.is_speaking = s.is_speaking := by
  simp only [isBargeInSpeech]
  split_ifs <;> exact ⟨rfl, rfl, rfl, rfl, rfl⟩

lemma classifyAndUpdate_proj (s : STSEngine) (now e th : ℚ) :
    (classifyAndUpdate s now e th).2.is_recording = s.is_recording ∧
    (classifyAndUpdate s now e th).2.speech_frames = s.speech_frames ∧
    (classifyAndUpdate s now e th).2.silence_frames = s.silence_frames ∧
    (classifyAndUpdate s now e th).2.audio_buffer = s.audio_buffer ∧
    (classifyAndUpdate s now e th).2.is_speaking = s.is_speaking := by
  simp only [classifyAndUpdate]
  split
  · exact isBargeInSpeech_proj s now e th
  · exact ⟨rfl, rfl, rfl, rfl, rfl⟩

lemma classify_fst (s : STSEngine) (now e : ℚ) :
    (classifyAndUpdate (updateNoiseFloor s e) now e (effectiveThreshold s)).1 =
      speechClassified s now e := by
  by_cases hsp : s.is_speaking = true
  · rw [updateNoiseFloor_of_speaking s e hsp]
    simp only [classifyAndUpdate, speechClassified, hsp, if_pos]
  · have hs' : (updateNoiseFloor s e).is_speaking = s.is_speaking :=
      (updateNoiseFloor_proj s e).2.2.2.2
    simp [classifyAndUpdate, speechClassified, hs', hsp]

lemma finishRecording_eq (s : STSEngine) :
    finishRecording s =
      ({ s with is_recording := false, speech_frames := 0, silence_frames := 0,
                audio_buffer := [] },
       if 5 < s.audio_buffer.length then [EngineOut.dispatch s.audio_buffer]
       else [EngineOut.discard]) := rfl

lemma startOrCount_speech_frames (s : STSEngine) (f : ℚ) :
    (startOrCount s f).1.speech_frames = s.speech_frames + 1 := by
  simp only [startOrCount]
  split_ifs <;> rfl

lemma startOrCount_of_lt (s : STSEngine) (f : ℚ)
    (h : s.speech_frames + 1 < SPEECH_START_FRAMES) :
    startOrCount s f = ({ s with speech_frames := s.speech_frames + 1 }, []) := by
  simp only [startOrCount]
  rw [if_neg (Nat.not_le.mpr h)]

lemma startOrCount_of_ge_quiet (s : STSEngine) (f : ℚ)
    (h : SPEECH_START_FRAMES ≤ s.speech_frames + 1) (hsp : s.is_speaking = false) :
    startOrCount s f =
      ({ s with speech_frames := s.speech_frames + 1, is_recording := true,
                silence_frames := 0, audio_buffer := [f] },
       [EngineOut.speechStart]) := by
  simp only [startOrCount]
  rw [if_pos h, dequeAppend_nil, if_neg (by simp [hsp])]

lemma startOrCount_entry (s : STSEngine) (f : ℚ)
    (hrec : s.is_recording = false)
    (h : (startOrCount s f).1.is_recording = true) :
    SPEECH_START_FRAMES ≤ s.speech_frames + 1 := by
  by_cases hge : SPEECH_START_FRAMES ≤ s.speech_frames + 1
  · exact hge
  · rw [startOrCount_of_lt s f (Nat.not_le.mp hge)] at h
    simp only at h
    rw [hrec] at h
    cases h

lemma startOrCount_no_dispatch (s : STSEngine) (f : ℚ) (b : List ℚ) :
    EngineOut.dispatch b ∉ (startOrCount s f).2 := by
  simp only [startOrCount]
  split_ifs <;> simp

lemma recordFrame_speech (s : STSEngine) (f : ℚ)
    (hcap : (dequeAppend s.audio_buffer f).length < MAX_RECORDING_FRAMES) :
    recordFrame s f true =
      ({ s with audio_buffer := dequeAppend s.audio_buffer f,
                silence_frames := 0 }, []) := by
  have h' : ¬ MAX_RECORDING_FRAMES ≤ (dequeAppend s.audio_buffer f).length :=
    Nat.not_le.mpr hcap
  simp [recordFrame, h']

lemma recordFrame_speech_cap (s : STSEngine) (f : ℚ)
    (hcap : MAX_RECORDING_FRAMES ≤ (dequeAppend s.audio_buffer f).length) :
    recordFrame s f true =
      ({ s with audio_buffer := [], silence_frames := 0, speech_frames := 0,
                is_recording := false },
       [EngineOut.dispatch (dequeAppend s.audio_buffer f)]) := by
  have h5 : 5 < (dequeAppend s.audio_buffer f).length := by
    unfold MAX_RECORDING_FRAMES at hcap
    omega
  simp [recordFrame, finishRecording, hcap, h5]

lemma recordFrame_silence_lt (s : STSEngine) (f : ℚ)
    (hsil : s.silence_frames + 1 < SILENCE_END_FRAMES)
    (hcap : (dequeAppend s.audio_buffer f).length < MAX_RECORDING_FRAMES) :
    recordFrame s f false =
      ({ s with audio_buffer := dequeAppend s.audio_buffer f,
                silence_frames := s.silence_frames + 1 }, []) := by
  have h1 : ¬ SILENCE_END_FRAMES ≤ s.silence_frames + 1 := Nat.not_le.mpr hsil
  have h2 : ¬ MAX_RECORDING_FRAMES ≤ (dequeAppend s.audio_buffer f).length :=
    Nat.not_le.mpr hcap
  simp [recordFrame, h1, h2]

lemma recordFrame_silence_cap (s : STSEngine) (f : ℚ)
    (hsil : s.silence_frames + 1 < SILENCE_END_FRAMES)
    (hcap : MAX_RECORDING_FRAMES ≤ (dequeAppend s.audio_buffer f).length) :
    recordFrame s f false =
      ({ s with audio_buffer := [], silence_frames := 0, speech_frames := 0,
                is_recording := false },
       [EngineOut.dispatch (dequeAppend s.audio_buffer f)]) := by
  have h1 : ¬ SILENCE_END_FRAMES ≤ s.silence_frames + 1 := Nat.not_le.mpr hsil
  have h5 : 5 < (dequeAppend s.audio_buffer f).length := by
    unfold MAX_RECORDING_FRAMES at hcap
    omega
  simp [recordFrame, finishRecording, h1, hcap, h5]

lemma recordFrame_silence_end (s : STSEngine) (f : ℚ)
    (hsil : SILENCE_END_FRAMES ≤ s.silence_frames + 1) :
    recordFrame s f false =
      ({ s with audio_buffer := [], silence_frames := 0, speech_frames := 0,
                is_recording := false },
       if 5 < (dequeAppend s.audio_buffer f).length then
         [EngineOut.dispatch (dequeAppend s.audio_buffer f)]
       else [EngineOut.discard]) := by
  have h0 : ¬ MAX_RECORDING_FRAMES ≤ (0 : ℕ) := by
    unfold MAX_RECORDING_FRAMES
    omega
  simp [recordFrame, finishRecording, hsil, h0]

lemma engineStep_quiet (s : STSEngine) (now e : ℚ)
    (hl : s.is_listening = true) (hig : s.ignore_until = 0)
    (hsp : s.is_speaking = false) :
    engineStep s now e =
      if s.is_recording = true then
        recordFrame s e (speechClassified s now e)
      else if speechClassified s now e = true then
        startOrCount (updateNoiseFloor s e) e
      else ({ updateNoiseFloor s e with speech_frames := s.speech_frames - 1 },
            []) := by
  have hnf := updateNoiseFloor_proj s e
  have hcf := classify_fst s now e
  have hcls2 :
      (classifyAndUpdate (updateNoiseFloor s e) now e (effectiveThreshold s)).2 =
        updateNoiseFloor s e := by
    unfold classifyAndUpdate
    rw [if_neg (show ¬((updateNoiseFloor s e).is_speaking = true) from by
      simp [hnf.2.2.2.2, hsp])]
  simp only [engineStep, processFrame]
  rw [if_neg (show ¬(s.is_listening = false) from by simp [hl]),
    if_neg (show ¬(s.ignore_until ≠ 0 ∧ now < s.ignore_until) from by simp [hig]),
    hcls2, hcf]
  rw [if_neg (show ¬((updateNoiseFloor s e).is_speaking = true ∧
        speechClassified s now e = false) from by simp [hnf.2.2.2.2, hsp]),
    hnf.1]
  by_cases hrec : s.is_recording = true
  · rw [if_neg (show ¬(s.is_recording = false) from by simp [hrec]),
      if_pos hrec, updateNoiseFloor_of_rec s e hrec]
  · have hrec' : s.is_recording = false := by
      cases h : s.is_recording
      · rfl
      · exact absurd h hrec
    rw [if_pos hrec',
      if_neg (show ¬(s.is_recording = true) from by simp [hrec']), hnf.2.1]

lemma stateAt_zero (s : STSEngine) (es : List (ℚ × ℚ)) : stateAt s es 0 = s := rfl

lemma stateAt_succ (s : STSEngine) (es : List (ℚ × ℚ)) (i : ℕ)
    (h : i < es.length) :
    stateAt s es (i + 1) =
      (engineStep (stateAt s es i) (es.getD i (0, 0)).1 (es.getD i (0, 0)).2).1 := by
  unfold stateAt frameRun
  rw [← List.take_concat_get' es i h, List.foldl_append,
    List.getD_eq_getElem es (0, 0) h]
  simp

lemma stateAt_quiet (s : STSEngine) (es : List (ℚ × ℚ))
    (hq : quietState s) : ∀ i, quietState (stateAt s es i) := by
  intro i
  induction i with
  | zero => exact hq
  | succ i ih =>
    by_cases h : i < es.length
    · rw [stateAt_succ s es i h]
      obtain ⟨h1, h2, h3⟩ :=
        envOf_fields (envOf_engineStep (stateAt s es i) (es.getD i (0, 0)).1
          (es.getD i (0, 0)).2)
      exact ⟨h1.trans ih.1, h2.trans ih.2.1, h3.trans ih.2.2⟩
    · have h1 : List.take (i + 1) es = es := List.take_of_length_le (by omega)
      have h2 : List.take i es = es := List.take_of_length_le (by omega)
      unfold stateAt at ih ⊢
      rw [h1]
      rw [h2] at ih
      exact ih

lemma recordFrame_cases (s : STSEngine) (f : ℚ) (b : Bool) :
    (b = true ∧ (dequeAppend s.audio_buffer f).length < MAX_RECORDING_FRAMES ∧
       recordFrame s f b =
         ({ s with audio_buffer := dequeAppend s.audio_buffer f,
                   silence_frames := 0 }, [])) ∨
    (b = false ∧ s.silence_frames + 1 < SILENCE_END_FRAMES ∧
       (dequeAppend s.audio_buffer f).length < MAX_RECORDING_FRAMES ∧
       recordFrame s f b =
         ({ s with audio_buffer := dequeAppend s.audio_buffer f,
                   silence_frames := s.silence_frames + 1 }, [])) ∨
    (((b = false ∧ SILENCE_END_FRAMES ≤ s.silence_frames + 1) ∨
        MAX_RECORDING_FRAMES ≤ (dequeAppend s.audio_buffer f).length) ∧
       (recordFrame s f b).1 =
         { s with audio_buffer := [], silence_frames := 0, speech_frames := 0,
                  is_recording := false }) := by
  cases b with
  | true =>
    by_cases hcap : MAX_RECORDING_FRAMES ≤ (dequeAppend s.audio_buffer f).length
    · refine Or.inr (Or.inr ⟨Or.inr hcap, ?_⟩)
      rw [recordFrame_speech_cap s f hcap]
    · exact Or.inl ⟨rfl, Nat.not_le.mp hcap, recordFrame_speech s f (Nat.not_le.mp hcap)⟩
  | false =>
    by_cases hsil : SILENCE_END_FRAMES ≤ s.silence_frames + 1
    · refine Or.inr (Or.inr ⟨Or.inl ⟨rfl, hsil⟩, ?_⟩)
      rw [recordFrame_silence_end s f hsil]
    · by_cases hcap : MAX_RECORDING_FRAMES ≤ (dequeAppend s.audio_buffer f).length
      · refine Or.inr (Or.inr ⟨Or.inr hcap, ?_⟩)
        rw [recordFrame_silence_cap s f (Nat.not_le.mp hsil) hcap]
      · exact Or.inr (Or.inl ⟨rfl, Nat.not_le.mp hsil, Nat.not_le.mp hcap,
          recordFrame_silence_lt s f (Nat.not_le.mp hsil) (Nat.not_le.mp hcap)⟩)

lemma startOrCount_cases (s : STSEngine) (f : ℚ) (hsp : s.is_speaking = false) :
    (s.speech_frames + 1 < SPEECH_START_FRAMES ∧
       startOrCount s f = ({ s with speech_frames := s.speech_frames + 1 }, [])) ∨
    (SPEECH_START_FRAMES ≤ s.speech_frames + 1 ∧
       startOrCount s f =
         ({ s with speech_frames := s.speech_frames + 1, is_recording := true,
                   silence_frames := 0, audio_buffer := [f] },
          [EngineOut.speechStart])) := by
  by_cases h : SPEECH_START_FRAMES ≤ s.speech_frames + 1
  · exact Or.inr ⟨h, startOrCount_of_ge_quiet s f h hsp⟩
  · exact Or.inl ⟨Nat.not_le.mp h, startOrCount_of_lt s f (Nat.not_le.mp h)⟩

lemma startOrCount_fst (s : STSEngine) (f : ℚ) :
    (startOrCount s f).1 = { s with speech_frames := s.speech_frames + 1 } ∨
    ((startOrCount s f).1.is_recording = true ∧
      (startOrCount s f).1.audio_buffer = [f]) := by
  simp only [startOrCount]
  split_ifs <;> simp [dequeAppend_nil]

lemma speechAt_eq (s : STSEngine) (es : List (ℚ × ℚ)) (i : ℕ) :
    speechAt s es i =
      speechClassified (stateAt s es i) (es.getD i (0, 0)).1 (es.getD i (0, 0)).2 :=
  rfl

lemma bufferInv_of_proj {a b : STSEngine} (hb : a.audio_buffer = b.audio_buffer)
    (hr : a.is_recording = b.is_recording) (h : bufferInv b) : bufferInv a := by
  unfold bufferInv at h ⊢
  rw [hb, hr]
  exact h

lemma bufferInv_clearVadState (s : STSEngine) (h : bufferInv s) :
    bufferInv (clearVadState s) := by
  unfold bufferInv at h ⊢
  simp only [clearVadState]
  cases hr : s.is_recording with
  | true => simp [hr]
  | false =>
    rw [hr] at h
    simp only [Bool.false_eq_true, iff_false, not_not] at h
    simp [hr, h]

lemma bufferInv_setSpeaking (s : STSEngine) (now : ℚ) (b : Bool)
    (h : bufferInv s) : bufferInv (setSpeaking s now b) := by
  unfold bufferInv at h ⊢
  simp only [setSpeaking]
  split_ifs <;> exact h

lemma bufferInv_setListening (s : STSEngine) (b : Bool)
    (h : bufferInv s) : bufferInv (setListening s b) := by
  unfold bufferInv at h ⊢
  simp only [setListening]
  split_ifs with hb
  · simp
  · exact h

lemma bufferInv_engineStep (s : STSEngine) (now e : ℚ) (h : bufferInv s) :
    bufferInv (engineStep s now e).1 := by
  have hnf := updateNoiseFloor_proj s e
  have hproj := classifyAndUpdate_proj (updateNoiseFloor s e) now e (effectiveThreshold s)
  have hc2 : bufferInv
      (classifyAndUpdate (updateNoiseFloor s e) now e (effectiveThreshold s)).2 :=
    bufferInv_of_proj (hproj.2.2.2.1.trans hnf.2.2.2.1) (hproj.1.trans hnf.1) h
  simp only [engineStep, processFrame]
  split_ifs with h1 h2 h3 h4 h5
  · exact bufferInv_clearVadState s h
  · exact bufferInv_clearVadState s h
  · exact bufferInv_clearVadState _ hc2
  · rcases startOrCount_fst
        (classifyAndUpdate (updateNoiseFloor s e) now e (effectiveThreshold s)).2 e with
      hc | hc
    · rw [hc]
      exact bufferInv_of_proj rfl rfl hc2
    · unfold bufferInv
      rw [hc.1, hc.2]
      simp
  · exact bufferInv_of_proj rfl rfl hc2
  · have hrec :
        (classifyAndUpdate (updateNoiseFloor s e) now e (effectiveThreshold s)).2.is_recording
          = true := by
      cases hx :
        (classifyAndUpdate (updateNoiseFloor s e) now e (effectiveThreshold s)).2.is_recording
      · exact absurd hx h4
      · rfl
    rcases recordFrame_cases
        (classifyAndUpdate (updateNoiseFloor s e) now e (effectiveThreshold s)).2 e
        (classifyAndUpdate (updateNoiseFloor s e) now e (effectiveThreshold s)).1 with
      ⟨_, _, heq⟩ | ⟨_, _, _, heq⟩ | ⟨_, heq⟩
    · rw [heq]
      unfold bufferInv
      simp [dequeAppend_ne_nil, hrec]
    · rw [heq]
      unfold bufferInv
      simp [dequeAppend_ne_nil, hrec]
    · unfold bufferInv
      rw [heq]
      simp

lemma bufferInv_eventStep (s : STSEngine) (ev : EngineEvent) (h : bufferInv s) :
    bufferInv (engineEventStep s ev) := by
  cases ev with
  | frame now e => exact bufferInv_engineStep s now e h
  | speaking now b => exact bufferInv_setSpeaking s now b h
  | listening b => exact bufferInv_setListening s b h

lemma stateAt_stab (s : STSEngine) (es : List (ℚ × ℚ)) (i : ℕ)
    (h : ¬ i < es.length) : stateAt s es (i + 1) = stateAt s es i := by
  have h1 : List.take (i + 1) es = es := List.take_of_length_le (by omega)
  have h2 : List.take i es = es := List.take_of_length_le (by omega)
  unfold stateAt
  rw [h1, h2]

lemma speech_start_pos : 0 < SPEECH_START_FRAMES := by
  unfold SPEECH_START_FRAMES
  omega

/-- Outside of `RECORDING`, the speech-confirmation counter stays strictly
below the confirmation count (it is consumed the moment it reaches it). -/
lemma inv_speech_bound (s0 : STSEngine) (es : List (ℚ × ℚ))
    (hq : quietState s0) (hsf0 : s0.speech_frames = 0) :
    ∀ i, (stateAt s0 es i).is_recording = false →
      (stateAt s0 es i).speech_frames < SPEECH_START_FRAMES := by
  intro i
  induction i with
  | zero =>
    intro _
    rw [stateAt_zero, hsf0]
    exact speech_start_pos
  | succ i ih =>
    by_cases hlt : i < es.length
    · have hqt := stateAt_quiet s0 es hq i
      rw [stateAt_succ s0 es i hlt,
        engineStep_quiet _ _ _ hqt.1 hqt.2.1 hqt.2.2]
      set t := stateAt s0 es i with ht
      by_cases hrec : t.is_recording = true
      · rw [if_pos hrec]
        rcases recordFrame_cases t (es.getD i (0, 0)).2
            (speechClassified t (es.getD i (0, 0)).1 (es.getD i (0, 0)).2) with
          ⟨_, _, heq⟩ | ⟨_, _, _, heq⟩ | ⟨_, heq⟩
        · rw [heq]
          intro hr
          simp only at hr
          exact absurd hr (by simp [hrec])
        · rw [heq]
          intro hr
          simp only at hr
          exact absurd hr (by simp [hrec])
        · rw [heq]
          intro _
          exact speech_start_pos
      · have hrec' : t.is_recording = false := by
          cases hx : t.is_recording
          · rfl
          · exact absurd hx hrec
        rw [if_neg hrec]
        by_cases hb :
            speechClassified t (es.getD i (0, 0)).1 (es.getD i (0, 0)).2 = true
        · rw [if_pos hb]
          have hnf := updateNoiseFloor_proj t (es.getD i (0, 0)).2
          rcases startOrCount_cases (updateNoiseFloor t (es.getD i (0, 0)).2)
              (es.getD i (0, 0)).2 (hnf.2.2.2.2.trans hqt.2.2) with
            ⟨hlt2, heq⟩ | ⟨_, heq⟩
          · rw [heq]
            intro _
            simp only [hnf.2.1] at hlt2 ⊢
            exact hlt2
          · rw [heq]
            intro hr
            simp only at hr
            cases hr
        · rw [if_neg hb]
          intro _
          simp only
          have := ih hrec'
          omega
    · rw [stateAt_stab s0 es i hlt]
      exact ih

/-- While `RECORDING`, the silence counter stays strictly below the
silence-confirmation count (reaching it finalizes the recording at once). -/
lemma inv_silence_bound (s0 : STSEngine) (es : List (ℚ × ℚ))
    (hq : quietState s0) (hrec0 : s0.is_recording = false) :
    ∀ i, (stateAt s0 es i).is_recording = true →
      (stateAt s0 es i).silence_frames < SILENCE_END_FRAMES := by
  intro i
  induction i with
  | zero =>
    intro hr
    rw [stateAt_zero] at hr
    rw [hrec0] at hr
    cases hr
  | succ i ih =>
    by_cases hlt : i < es.length
    · have hqt := stateAt_quiet s0 es hq i
      rw [stateAt_succ s0 es i hlt,
        engineStep_quiet _ _ _ hqt.1 hqt.2.1 hqt.2.2]
      set t := stateAt s0 es i with ht
      by_cases hrec : t.is_recording = true
      · rw [if_pos hrec]
        rcases recordFrame_cases t (es.getD i (0, 0)).2
            (speechClassified t (es.getD i (0, 0)).1 (es.getD i (0, 0)).2) with
          ⟨_, _, heq⟩ | ⟨_, hsil, _, heq⟩ | ⟨_, heq⟩
        · rw [heq]
          intro _
          simp only
          unfold SILENCE_END_FRAMES
          omega
        · rw [heq]
          intro _
          simp only
          exact hsil
        · rw [heq]
          intro hr
          simp only at hr
          cases hr
      · rw [if_neg hrec]
        by_cases hb :
            speechClassified t (es.getD i (0, 0)).1 (es.getD i (0, 0)).2 = true
        · rw [if_pos hb]
          have hnf := updateNoiseFloor_proj t (es.getD i (0, 0)).2
          rcases startOrCount_cases (updateNoiseFloor t (es.getD i (0, 0)).2)
              (es.getD i (0, 0)).2 (hnf.2.2.2.2.trans hqt.2.2) with
            ⟨_, heq⟩ | ⟨_, heq⟩
          · rw [heq]
            intro hr
            simp only [hnf.1] at hr
            exact absurd hr hrec
          · rw [heq]
            intro _
            simp only
            unfold SILENCE_END_FRAMES
            omega
        · rw [if_neg hb]
          intro hr
          have hnf := updateNoiseFloor_proj t (es.getD i (0, 0)).2
          simp only at hr
          rw [hnf.1] at hr
          exact absurd hr hrec
    · rw [stateAt_stab s0 es i hlt]
      exact ih

/-- When the speech-confirmation counter is at 1 outside of `RECORDING`,
the previous processed frame was speech-classified. -/
lemma inv_entry_prev (s0 : STSEngine) (es : List (ℚ × ℚ))
    (hq : quietState s0) (hsf0 : s0.speech_frames = 0) :
    ∀ i, i ≤ es.length →
      (stateAt s0 es i).is_recording = false →
      (stateAt s0 es i).speech_frames = 1 →
      1 ≤ i ∧ speechAt s0 es (i - 1) = true := by
  intro i
  induction i with
  | zero =>
    intro _ _ hsf
    rw [stateAt_zero, hsf0] at hsf
    cases hsf
  | succ i ih =>
    intro hle hrec1 hsf1
    have hlt : i < es.length := by omega
    have hqt := stateAt_quiet s0 es hq i
    rw [stateAt_succ s0 es i hlt,
      engineStep_quiet _ _ _ hqt.1 hqt.2.1 hqt.2.2] at hrec1 hsf1
    set t := stateAt s0 es i with ht
    by_cases hrec : t.is_recording = true
    · rw [if_pos hrec] at hrec1 hsf1
      rcases recordFrame_cases t (es.getD i (0, 0)).2
          (speechClassified t (es.getD i (0, 0)).1 (es.getD i (0, 0)).2) with
        ⟨_, _, heq⟩ | ⟨_, _, _, heq⟩ | ⟨_, heq⟩
      · rw [heq] at hrec1
        simp only at hrec1
        exact absurd hrec1 (by simp [hrec])
      · rw [heq] at hrec1
        simp only at hrec1
        exact absurd hrec1 (by simp [hrec])
      · rw [heq] at hsf1
        cases hsf1
    · have hrec' : t.is_recording = false := by
        cases hx : t.is_recording
        · rfl
        · exact absurd hx hrec
      rw [if_neg hrec] at hrec1 hsf1
      by_cases hb :
          speechClassified t (es.getD i (0, 0)).1 (es.getD i (0, 0)).2 = true
      · refine ⟨by omega, ?_⟩
        simp only [Nat.add_sub_cancel]
        rw [speechAt_eq, ← ht]
        exact hb
      · rw [if_neg hb] at hsf1
        simp only at hsf1
        have hbound := inv_speech_bound s0 es hq hsf0 i hrec'
        rw [← ht] at hbound
        unfold SPEECH_START_FRAMES at hbound
        omega

/-- While `RECORDING`, the silence counter counts a run of trailing
silence-classified frames. -/
lemma inv_silence_history (s0 : STSEngine) (es : List (ℚ × ℚ))
    (hq : quietState s0) (hrec0 : s0.is_recording = false) :
    ∀ i, i ≤ es.length →
      (stateAt s0 es i).is_recording = true →
      (stateAt s0 es i).silence_frames ≤ i ∧
        ∀ j, i - (stateAt s0 es i).silence_frames ≤ j → j < i →
          speechAt s0 es j = false := by
  intro i
  induction i with
  | zero =>
    intro _ hr
    rw [stateAt_zero, hrec0] at hr
    cases hr
  | succ i ih =>
    intro hle hrec1
    have hlt : i < es.length := by omega
    have hqt := stateAt_quiet s0 es hq i
    rw [stateAt_succ s0 es i hlt,
      engineStep_quiet _ _ _ hqt.1 hqt.2.1 hqt.2.2] at hrec1 ⊢
    set t := stateAt s0 es i with ht
    by_cases hrec : t.is_recording = true
    · rw [if_pos hrec] at hrec1 ⊢
      rcases recordFrame_cases t (es.getD i (0, 0)).2
          (speechClassified t (es.getD i (0, 0)).1 (es.getD i (0, 0)).2) with
        ⟨_, _, heq⟩ | ⟨hb0, hsil, _, heq⟩ | ⟨_, heq⟩
      · rw [heq]
        simp only
        exact ⟨by omega, fun j h1 h2 => absurd h2 (by omega)⟩
      · rw [heq]
        simp only
        obtain ⟨hsi, hhist⟩ := ih (by omega) hrec
        refine ⟨by omega, fun j h1 h2 => ?_⟩
        by_cases hj : j < i
        · exact hhist j (by omega) hj
        · have hji : j = i := by omega
          subst hji
          rw [speechAt_eq, ← ht]
          exact hb0
      · rw [heq] at hrec1
        cases hrec1
    · rw [if_neg hrec] at hrec1 ⊢
      by_cases hb :
          speechClassified t (es.getD i (0, 0)).1 (es.getD i (0, 0)).2 = true
      · rw [if_pos hb] at hrec1 ⊢
        have hnf := updateNoiseFloor_proj t (es.getD i (0, 0)).2
        rcases startOrCount_cases (updateNoiseFloor t (es.getD i (0, 0)).2)
            (es.getD i (0, 0)).2 (hnf.2.2.2.2.trans hqt.2.2) with
          ⟨_, heq⟩ | ⟨_, heq⟩
        · rw [heq] at hrec1
          simp only [hnf.1] at hrec1
          exact absurd hrec1 hrec
        · rw [heq]
          simp only
          exact ⟨by omega, fun j h1 h2 => absurd h2 (by omega)⟩
      · rw [if_neg hb] at hrec1
        simp only at hrec1
        have hnf := updateNoiseFloor_proj t (es.getD i (0, 0)).2
        rw [hnf.1] at hrec1
        exact absurd hrec1 hrec

/-- C1 (amended): for frames processed while TTS is inactive, the mic is
enabled and no post-TTS cooldown is pending, starting from an idle engine:
the segmenter enters RECORDING at frame `i` only when frames `i-1` and `i`
are both speech-classified (at least `SPEECH_START_FRAMES = 2` consecutive
speech frames), and leaves RECORDING at frame `i` only when the buffer had
already reached `MAX_RECORDING_FRAMES - 1` frames before the final append
(the max-length cap) or the last `SILENCE_END_FRAMES = 16` consecutive
frames, frame `i` included, are all silence-classified. -/
theorem c1_hysteresis_amended (s0 : STSEngine) (es : List (ℚ × ℚ))
    (hl : s0.is_listening = true) (hig : s0.ignore_until = 0)
    (hsp : s0.is_speaking = false) (hrec0 : s0.is_recording = false)
    (hsf0 : s0.speech_frames = 0) :
    ∀ i, i < es.length →
      (((stateAt s0 es i).is_recording = false ∧
          (stateAt s0 es (i + 1)).is_recording = true) →
        (speechAt s0 es i = true ∧ 1 ≤ i ∧ speechAt s0 es (i - 1) = true)) ∧
      (((stateAt s0 es i).is_recording = true ∧
          (stateAt s0 es (i + 1)).is_recording = false) →
        (MAX_RECORDING_FRAMES - 1 ≤ (stateAt s0 es i).audio_buffer.length ∨
          (SILENCE_END_FRAMES ≤ i + 1 ∧
            ∀ j, i + 1 - SILENCE_END_FRAMES ≤ j → j ≤ i →
              speechAt s0 es j = false))) := by
  intro i hlt
  have hq : quietState s0 := ⟨hl, hig, hsp⟩
  have hqt := stateAt_quiet s0 es hq i
  constructor
  · rintro ⟨hri, hri1⟩
    rw [stateAt_succ s0 es i hlt,
      engineStep_quiet _ _ _ hqt.1 hqt.2.1 hqt.2.2] at hri1
    set t := stateAt s0 es i with ht
    rw [if_neg (by simp [hri])] at hri1
    by_cases hb :
        speechClassified t (es.getD i (0, 0)).1 (es.getD i (0, 0)).2 = true
    · rw [if_pos hb] at hri1
      have hnf := updateNoiseFloor_proj t (es.getD i (0, 0)).2
      rcases startOrCount_cases (updateNoiseFloor t (es.getD i (0, 0)).2)
          (es.getD i (0, 0)).2 (hnf.2.2.2.2.trans hqt.2.2) with
        ⟨_, heq⟩ | ⟨hge, heq⟩
      · rw [heq] at hri1
        simp only [hnf.1] at hri1
        exact absurd hri1 (by simp [hri])
      · rw [hnf.2.1] at hge
        have hb1 : t.speech_frames = 1 := by
          have hbound := inv_speech_bound s0 es hq hsf0 i hri
          rw [← ht] at hbound
          unfold SPEECH_START_FRAMES at hge hbound
          omega
        obtain ⟨hi1, hprev⟩ :=
          inv_entry_prev s0 es hq hsf0 i (le_of_lt hlt) (ht ▸ hri) (ht ▸ hb1)
        refine ⟨?_, hi1, hprev⟩
        rw [speechAt_eq, ← ht]
        exact hb
    · rw [if_neg hb] at hri1
      simp only at hri1
      have hnf := updateNoiseFloor_proj t (es.getD i (0, 0)).2
      rw [hnf.1] at hri1
      exact absurd hri1 (by simp [hri])
  · rintro ⟨hri, hri1⟩
    rw [stateAt_succ s0 es i hlt,
      engineStep_quiet _ _ _ hqt.1 hqt.2.1 hqt.2.2] at hri1
    set t := stateAt s0 es i with ht
    rw [if_pos hri] at hri1
    rcases recordFrame_cases t (es.getD i (0, 0)).2
        (speechClassified t (es.getD i (0, 0)).1 (es.getD i (0, 0)).2) with
      ⟨_, _, heq⟩ | ⟨_, _, _, heq⟩ | ⟨hfin, _⟩
    · rw [heq] at hri1
      simp only at hri1
      exact absurd hri1 (by simp [hri])
    · rw [heq] at hri1
      simp only at hri1
      exact absurd hri1 (by simp [hri])
    · rcases hfin with ⟨hb0, hsil⟩ | hcap
      · right
        have hsbound := inv_silence_bound s0 es hq hrec0 i (ht ▸ hri)
        rw [← ht] at hsbound
        have hs15 : t.silence_frames = SILENCE_END_FRAMES - 1 := by
          unfold SILENCE_END_FRAMES at hsil hsbound ⊢
          omega
        obtain ⟨hsi, hhist⟩ :=
          inv_silence_history s0 es hq hrec0 i (le_of_lt hlt) (ht ▸ hri)
        rw [← ht] at hsi hhist
        rw [hs15] at hsi hhist
        refine ⟨by unfold SILENCE_END_FRAMES at hsi ⊢; omega,
          fun j h1 h2 => ?_⟩
        by_cases hj : j < i
        · refine hhist j ?_ hj
          unfold SILENCE_END_FRAMES at h1 ⊢
          omega
        · have hji : j = i := by omega
          subst hji
          rw [speechAt_eq, ← ht]
          exact hb0
      · left
        have hlen := dequeAppend_length t.audio_buffer (es.getD i (0, 0)).2
        by_cases hx : MAX_RECORDING_FRAMES ≤ t.audio_buffer.length
        · unfold MAX_RECORDING_FRAMES at hx ⊢
          omega
        · rw [hlen, if_neg hx] at hcap
          unfold MAX_RECORDING_FRAMES at hcap ⊢
          omega





/-- C2: buffer exclusivity.  Starting from the freshly initialized engine
and applying any sequence of processed frames and public setter calls
(`set_speaking`, `set_listening`), the audio buffer is non-empty exactly
when the segmenter is in RECORDING. -/
theorem c2_buffer_exclusivity (evs : List EngineEvent) :
    ((engineRun initEngine evs).audio_buffer ≠ [] ↔
      (engineRun initEngine evs).is_recording = true) := by
  have h0 : bufferInv initEngine := by
    unfold bufferInv initEngine
    simp
  suffices h : ∀ s, bufferInv s → bufferInv (engineRun s evs) from h initEngine h0
  induction evs with
  | nil => exact fun s hs => hs
  | cons ev rest ih =>
    intro s hs
    unfold engineRun at ih ⊢
    rw [List.foldl_cons]
    exact ih _ (bufferInv_eventStep s ev hs)



/-- C3 (amended): once the guard window has expired and the TTS baseline is
initialized and non-negative, a frame whose energy exactly equals the
tracked `ttsBaselineEMA` is never classified as barge-in and leaves the
baseline unchanged (so a whole run of such echo frames classifies as
silence); a frame jumping to `ttsBaselineEMA * 2 + 300` is classified as
barge-in provided that value also exceeds the base threshold passed in —
the margin over the baseline alone is not sufficient when the effective
base threshold is higher. -/
theorem c3_barge_in_margin_amended (s : STSEngine) (now energy base : ℚ)
    (hguard : ¬(s.tts_started_at ≠ 0 ∧ now - s.tts_started_at < BARGE_IN_GUARD_SEC))
    (hinit : s.tts_energy_initialized = true)
    (hema : 0 ≤ s.tts_energy_ema) :
    (energy = s.tts_energy_ema →
      (isBargeInSpeech s now energy base).1 = false ∧
      (isBargeInSpeech s now energy base).2.tts_energy_ema = s.tts_energy_ema) ∧
    (energy = 2 * s.tts_energy_ema + 300 → base < energy →
      (isBargeInSpeech s now energy base).1 = true) := by
  simp only [isBargeInSpeech]
  rw [if_neg hguard,
    if_neg (show ¬(s.tts_energy_initialized = false) from by simp [hinit])]
  simp only [TTS_BASELINE_EMA_ALPHA, BARGE_IN_MULTIPLIER, BARGE_IN_DELTA]
  constructor
  · intro he
    refine ⟨decide_eq_false ?_, ?_⟩
    · refine not_lt.mpr ?_
      refine le_trans ?_ (le_max_right _ _)
      linarith
    · show (1 - 3/20 : ℚ) * s.tts_energy_ema + (3/20) * energy =
        s.tts_energy_ema
      rw [he]
      ring
  · intro he hb
    refine decide_eq_true ?_
    refine max_lt hb ?_
    linarith

/-- C5: once the adaptive noise floor is initialized, `get_vad_threshold`
returns `max(staticSilenceThreshold, noiseFloorEMA * 1.8 + 40)` when TTS is
inactive, and exactly that base plus the fixed echo boost 200 when TTS is
active (with the default static threshold 250). -/
theorem c5_effective_threshold (s : STSEngine)
    (h : s.noise_floor_initialized = true) :
    (s.is_speaking = false →
      getVadThreshold s = max 250 (s.noise_floor_ema * (9/5) + 40)) ∧
    (s.is_speaking = true →
      getVadThreshold s = max 250 (s.noise_floor_ema * (9/5) + 40) + 200) := by
  simp only [getVadThreshold, effectiveThreshold, SILENCE_THRESHOLD,
    NOISE_FLOOR_MULTIPLIER, NOISE_FLOOR_MARGIN, ECHO_THRESHOLD_BOOST]
  rw [if_pos h]
  constructor
  · intro hs
    rw [if_neg (by simp [hs])]
  · intro hs
    rw [if_pos hs]

/-- Witness for `c5_effective_threshold` at a concrete state with
noise floor EMA 100, evaluating both the TTS-inactive value and the
hypothesis. -/
theorem c5_effective_threshold_witness :
    c5Wit.noise_floor_initialized = true ∧
    getVadThreshold c5Wit = max 250 (c5Wit.noise_floor_ema * (9/5) + 40) :=
  ⟨rfl, (c5_effective_threshold c5Wit rfl).1 rfl⟩

/-- C6: `_finish_recording` always leaves the buffer empty, both counters
zero and the recording flag cleared, and it dispatches the recorded buffer
to transcription exactly when the buffer holds more than 5 frames,
discarding it silently otherwise. -/
theorem c6_finalize_rule (s : STSEngine) :
    (finishRecording s).1.audio_buffer = [] ∧
    (finishRecording s).1.speech_frames = 0 ∧
    (finishRecording s).1.silence_frames = 0 ∧
    (finishRecording s).1.is_recording = false ∧
    (finishRecording s).2 =
      (if 5 < s.audio_buffer.length then [EngineOut.dispatch s.audio_buffer]
       else [EngineOut.discard]) := by
  rw [finishRecording_eq]
  exact ⟨rfl, rfl, rfl, rfl, rfl⟩

/-- C7: while TTS is active, a frame classified as non-speech during an
in-progress recording immediately discards the whole recording — buffer
cleared, both counters zeroed, nothing dispatched — and a dispatch can
happen during TTS only on the max-length-cap path, i.e. when the buffer
already holds at least `MAX_RECORDING_FRAMES - 1 = 499` frames, so the
silence-confirmation exit is unreachable while TTS plays. -/
theorem c7_tts_silence_abort (s : STSEngine) (now e : ℚ)
    (hspk : s.is_speaking = true) :
    ((s.is_listening = true) →
      ¬(s.ignore_until ≠ 0 ∧ now < s.ignore_until) →
      speechClassified s now e = false →
      s.is_recording = true →
      ((engineStep s now e).1.is_recording = false ∧
        (engineStep s now e).1.audio_buffer = [] ∧
        (engineStep s now e).1.speech_frames = 0 ∧
        (engineStep s now e).1.silence_frames = 0 ∧
        (engineStep s now e).2 = [])) ∧
    (∀ b, EngineOut.dispatch b ∈ (engineStep s now e).2 →
      MAX_RECORDING_FRAMES - 1 ≤ s.audio_buffer.length) := by
  have hnfid : updateNoiseFloor s e = s := updateNoiseFloor_of_speaking s e hspk
  have hcl : classifyAndUpdate s now e (effectiveThreshold s) =
      isBargeInSpeech s now e (effectiveThreshold s) := by
    unfold classifyAndUpdate
    rw [if_pos hspk]
  have hbproj := isBargeInSpeech_proj s now e (effectiveThreshold s)
  constructor
  · intro hl hig hb hrec
    have hb' : (isBargeInSpeech s now e (effectiveThreshold s)).1 = false := by
      unfold speechClassified at hb
      rw [if_pos hspk] at hb
      exact hb
    simp only [engineStep, processFrame]
    rw [if_neg (show ¬(s.is_listening = false) from by simp [hl]), if_neg hig,
      hnfid, hcl]
    rw [if_pos (show (isBargeInSpeech s now e (effectiveThreshold s)).2.is_speaking
          = true ∧ (isBargeInSpeech s now e (effectiveThreshold s)).1 = false from
        ⟨hbproj.2.2.2.2.trans hspk, hb'⟩)]
    unfold clearVadState
    simp [hbproj.1, hbproj.2.2.2.1, hrec]
  · intro b hmem
    simp only [engineStep, processFrame] at hmem
    by_cases hl : s.is_listening = false
    · rw [if_pos hl] at hmem
      cases hmem
    · rw [if_neg hl] at hmem
      by_cases hig : s.ignore_until ≠ 0 ∧ now < s.ignore_until
      · rw [if_pos hig] at hmem
        cases hmem
      · rw [if_neg hig, hnfid, hcl] at hmem
        by_cases hb : (isBargeInSpeech s now e (effectiveThreshold s)).1 = false
        · rw [if_pos ⟨hbproj.2.2.2.2.trans hspk, hb⟩] at hmem
          cases hmem
        · rw [if_neg (by simp [hb])] at hmem
          by_cases hrec :
              (isBargeInSpeech s now e (effectiveThreshold s)).2.is_recording = false
          · rw [if_pos hrec] at hmem
            by_cases hb2 : (isBargeInSpeech s now e (effectiveThreshold s)).1 = true
            · rw [if_pos hb2] at hmem
              exact absurd hmem (startOrCount_no_dispatch _ _ _)
            · rw [if_neg hb2] at hmem
              cases hmem
          · rw [if_neg hrec] at hmem
            have hb2 : (isBargeInSpeech s now e (effectiveThreshold s)).1 = true := by
              cases hx : (isBargeInSpeech s now e (effectiveThreshold s)).1
              · exact absurd hx hb
              · rfl
            rw [hb2] at hmem
            rcases recordFrame_cases
                (isBargeInSpeech s now e (effectiveThreshold s)).2 e true with
              ⟨_, _, heq⟩ | ⟨hfalse, _, _, _⟩ | ⟨hfin, _⟩
            · rw [heq] at hmem
              cases hmem
            · cases hfalse
            · rcases hfin with ⟨hfalse, _⟩ | hcap
              · cases hfalse
              · rw [hbproj.2.2.2.1] at hcap
                have hlen := dequeAppend_length s.audio_buffer e
                by_cases hx : MAX_RECORDING_FRAMES ≤ s.audio_buffer.length
                · unfold MAX_RECORDING_FRAMES at hx ⊢
                  omega
                · rw [hlen, if_neg hx] at hcap
                  unfold MAX_RECORDING_FRAMES at hcap ⊢
                  omega

/-- Witness for `c7_tts_silence_abort`: a concrete TTS-active state with a
5-frame recording in progress. -/
theorem c7_tts_silence_abort_witness :
    c7Wit.is_speaking = true ∧
    (((c7Wit.is_listening = true) →
      ¬(c7Wit.ignore_until ≠ 0 ∧ (0 : ℚ) < c7Wit.ignore_until) →
      speechClassified c7Wit 0 0 = false →
      c7Wit.is_recording = true →
      ((engineStep c7Wit 0 0).1.is_recording = false ∧
        (engineStep c7Wit 0 0).1.audio_buffer = [] ∧
        (engineStep c7Wit 0 0).1.speech_frames = 0 ∧
        (engineStep c7Wit 0 0).1.silence_frames = 0 ∧
        (engineStep c7Wit 0 0).2 = [])) ∧
     (∀ b, EngineOut.dispatch b ∈ (engineStep c7Wit 0 0).2 →
       MAX_RECORDING_FRAMES - 1 ≤ c7Wit.audio_buffer.length)) :=
  ⟨rfl, c7_tts_silence_abort c7Wit 0 0 rfl⟩

/-- C9: a transcription result is emitted through `on_speech_end` exactly
when the provider call succeeds and the stripped, lower-cased text is
neither an exact member of the hallucination set nor shorter than 2
characters; a provider exception is dropped with no emission. -/
theorem c9_transcription_gate :
    (∀ r : Except Unit String,
      ((transcribeAsyncResult r).isSome = true ↔
        ∃ raw, r = Except.ok raw ∧
          hallucinations.contains (raw.trim.toLower) = false ∧
          2 ≤ (raw.trim.toLower).length)) ∧
    (∀ err : Unit, transcribeAsyncResult (Except.error err) = none) := by
  constructor
  · intro r
    cases r with
    | error e => simp [transcribeAsyncResult]
    | ok raw =>
      simp only [transcribeAsyncResult, transcriptionGateText]
      by_cases hcond : (hallucinations.contains (raw.trim.toLower)
          || decide ((raw.trim.toLower).length < 2)) = true
      · rw [if_pos hcond]
        simp only [Bool.or_eq_true, decide_eq_true_eq] at hcond
        simp only [Option.isSome_none, Bool.false_eq_true, false_iff]
        rintro ⟨raw', heq, hc, hl⟩
        injection heq with h
        subst h
        rcases hcond with hc' | hl'
        · rw [hc'] at hc
          cases hc
        · omega
      · rw [if_neg hcond]
        simp only [Bool.or_eq_true, decide_eq_true_eq, not_or] at hcond
        obtain ⟨hc, hl⟩ := hcond
        simp only [Option.isSome_some, true_iff]
        refine ⟨raw, rfl, ?_, ?_⟩
        · cases hx : hallucinations.contains (raw.trim.toLower)
          · rfl
          · exact absurd hx hc
        · omega
  · intro err
    rfl

/-- C10: when an interrupt is requested while nothing is playing
(`_tts_active` false and the engine's `is_speaking` false), `_on_interrupt`
never reaches `stop_speaking()` — the call is a no-op (and the handler is a
total function, so no exception is raised). -/
theorem c10_interrupt_noop (o : OrchInterrupt) (now : ℚ)
    (h1 : o.tts_active = false) (h2 : o.engine_speaking = false) :
    (onInterrupt o now).2 ≠ InterruptResult.stopSpeaking := by
  simp only [onInterrupt]
  split_ifs with hc hp
  · simp
  · simp
  · simp [h1, h2] at hp

lemma no_empty_flushVoiceBuffer (st : DebounceState) :
    "" ∈ (flushVoiceBuffer st).2 → False := by
  simp only [flushVoiceBuffer]
  split_ifs with h1 h2
  · simp
  · simp
  · intro hmem
    simp only [List.mem_singleton] at hmem
    exact h2 hmem.symm

lemma no_empty_enqueueVoiceInput (cfg : DebounceConfig) (st : DebounceState)
    (now : ℚ) (raw : String) :
    "" ∈ (enqueueVoiceInput cfg st now raw).2 → False := by
  simp only [enqueueVoiceInput]
  split_ifs with h1 h2 h3 h4 <;>
    first
      | (intro hmem
         simp only [List.mem_singleton] at hmem
         exact h1 hmem.symm)
      | exact no_empty_flushVoiceBuffer _
      | simp

lemma no_empty_debounceArrive (cfg : DebounceConfig) (st : DebounceState)
    (now : ℚ) (text : String) :
    "" ∈ (debounceArrive cfg st now text).2 → False := by
  intro hmem
  rcases hx : st.pendingDeadline with _ | d
  · simp only [debounceArrive, hx, List.nil_append] at hmem
    exact no_empty_enqueueVoiceInput _ _ _ _ hmem
  · simp only [debounceArrive, hx] at hmem
    split_ifs at hmem with hd
    · rw [List.mem_append] at hmem
      rcases hmem with h | h
      · exact no_empty_flushVoiceBuffer _ h
      · exact no_empty_enqueueVoiceInput _ _ _ _ h
    · simp only [List.nil_append] at hmem
      exact no_empty_enqueueVoiceInput _ _ _ _ hmem

lemma no_empty_debounceFinish (st : DebounceState) :
    "" ∈ debounceFinish st → False := by
  unfold debounceFinish
  cases hp : st.pendingDeadline with
  | none => simp
  | some d => exact no_empty_flushVoiceBuffer _

lemma no_empty_debounceRunFrom (cfg : DebounceConfig) :
    ∀ (arrivals : List (ℚ × String)) (st : DebounceState),
      "" ∈ debounceRunFrom cfg st arrivals → False := by
  intro arrivals
  induction arrivals with
  | nil => exact fun st h => no_empty_debounceFinish st h
  | cons a rest ih =>
    intro st h
    simp only [debounceRunFrom] at h
    rw [List.mem_append] at h
    rcases h with h | h
    · exact no_empty_debounceArrive cfg st a.1 a.2 h
    · exact ih _ h

section ConcreteRuns

/- Batteries marks the rational-number operations `@[irreducible]`, which
prevents `decide` from evaluating concrete runs of the model; restore the
default reducibility inside this section of concrete evaluations. -/
attribute [local semireducible] Rat.add Rat.mul Rat.sub Rat.inv

set_option maxHeartbeats 2000000

/-- C1 (counterexample): from a quiet idle start, two loud frames put the
engine in RECORDING (buffer holding 1 frame, silence counter 0); TTS then
starts and a single quiet frame — classified as non-speech by the barge-in
detector — takes the engine out of RECORDING immediately, with no run of 16
silence-classified frames and no 500-frame cap.  This refutes the claim
that the engine leaves RECORDING "never on a single frame's
classification" for arbitrary processed-frame sequences. -/
theorem c1_counterexample :
    (engineRun c1Start (c1Events.take 3)).is_recording = true ∧
    (engineRun c1Start (c1Events.take 3)).silence_frames = 0 ∧
    (engineRun c1Start (c1Events.take 3)).audio_buffer.length = 1 ∧
    (engineRun c1Start c1Events).is_recording = false ∧
    (engineRun c1Start c1Events).audio_buffer = [] := by
  decide

/-- Witness for `c1_hysteresis_amended`: the concrete two-frame trace
`c1WitFrames` from `c1Start` satisfies every hypothesis, and the
instantiated conclusion at `i = 1` exhibits the entry side of the
hysteresis. -/
theorem c1_hysteresis_amended_witness :
    (c1Start.is_listening = true ∧ c1Start.ignore_until = 0 ∧
      c1Start.is_speaking = false ∧ c1Start.is_recording = false ∧
      c1Start.speech_frames = 0 ∧ 1 < c1WitFrames.length) ∧
    ((((stateAt c1Start c1WitFrames 1).is_recording = false ∧
        (stateAt c1Start c1WitFrames 2).is_recording = true) →
      (speechAt c1Start c1WitFrames 1 = true ∧ 1 ≤ 1 ∧
        speechAt c1Start c1WitFrames 0 = true)) ∧
     (((stateAt c1Start c1WitFrames 1).is_recording = true ∧
        (stateAt c1Start c1WitFrames 2).is_recording = false) →
      (MAX_RECORDING_FRAMES - 1 ≤
          (stateAt c1Start c1WitFrames 1).audio_buffer.length ∨
        (SILENCE_END_FRAMES ≤ 1 + 1 ∧
          ∀ j, 1 + 1 - SILENCE_END_FRAMES ≤ j → j ≤ 1 →
            speechAt c1Start c1WitFrames j = false)))) :=
  ⟨⟨rfl, rfl, rfl, rfl, rfl, by decide⟩,
    c1_hysteresis_amended c1Start c1WitFrames rfl rfl rfl rfl rfl 1 (by decide)⟩

/-- C3 (counterexample): in a reachable engine state (TTS active past the
guard window, tracked TTS baseline 100, adaptive noise floor at 500 so the
effective base threshold is 1140), frames matching the baseline return
`false` and leave the baseline unchanged — but a frame jumping to
`ttsBaselineEMA * 2 + 300 = 500` also returns `false`, because the jump
stays below the base-threshold floor of the dynamic comparison.  The claim
that the jump frame always returns `true` is therefore false. -/
theorem c3_counterexample :
    BARGE_IN_GUARD_SEC ≤ (2 : ℚ) - c3State.tts_started_at ∧
    (isBargeInSpeech c3State 2 c3State.tts_energy_ema
        (effectiveThreshold c3State)).1 = false ∧
    (isBargeInSpeech c3State 2 c3State.tts_energy_ema
        (effectiveThreshold c3State)).2.tts_energy_ema = c3State.tts_energy_ema ∧
    (2 : ℚ) * c3State.tts_energy_ema + 300 = 500 ∧
    (isBargeInSpeech c3State 2 (2 * c3State.tts_energy_ema + 300)
        (effectiveThreshold c3State)).1 = false := by
  decide

/-- Witness for `c3_barge_in_margin_amended` at the state `c3Wit`
(baseline 100, guard expired at `now = 2`), energy 500 and base threshold
250. -/
theorem c3_barge_in_margin_amended_witness :
    (¬(c3Wit.tts_started_at ≠ 0 ∧
        (2 : ℚ) - c3Wit.tts_started_at < BARGE_IN_GUARD_SEC)) ∧
    c3Wit.tts_energy_initialized = true ∧ (0 : ℚ) ≤ c3Wit.tts_energy_ema ∧
    ((((500 : ℚ)) = c3Wit.tts_energy_ema →
      (isBargeInSpeech c3Wit 2 500 250).1 = false ∧
      (isBargeInSpeech c3Wit 2 500 250).2.tts_energy_ema =
        c3Wit.tts_energy_ema) ∧
     (((500 : ℚ)) = 2 * c3Wit.tts_energy_ema + 300 → (250 : ℚ) < 500 →
      (isBargeInSpeech c3Wit 2 500 250).1 = true)) :=
  ⟨by decide, rfl, by decide,
    c3_barge_in_margin_amended c3Wit 2 500 250 (by decide) rfl (by decide)⟩

/-- C4 (counterexample): from a quiet idle start, the normal-turn scenario
(12 speech-classified frames of energy 1000, then 16 silence-classified
frames of energy 0; RECORDING begins on the second frame) produces exactly
one dispatch — but its buffer holds 27 frames, not the claimed 28: the
buffer is cleared when recording starts, so the first confirming frame is
not retained. -/
theorem c4_normal_turn_counterexample :
    ((List.range 28).all fun i =>
      speechAt c4Start c4Frames i == decide (i < 12)) = true ∧
    (stateAt c4Start c4Frames 1).is_recording = false ∧
    (stateAt c4Start c4Frames 2).is_recording = true ∧
    dispatchLens (frameRunOuts c4Start c4Frames).2 = [27] ∧
    ¬ dispatchLens (frameRunOuts c4Start c4Frames).2 = [28] := by
  decide

/-- C4 (amended): the scenario produces exactly two outputs — one
`on_speech_start` notification and one dispatch whose buffer holds
exactly 1 + 10 + 16 = 27 frames (the confirming frame, the 10 further
speech frames and the 16 silence frames). -/
theorem c4_normal_turn_amended :
    (frameRunOuts c4Start c4Frames).2 =
      [EngineOut.speechStart,
       EngineOut.dispatch (List.replicate 11 (1000 : ℚ) ++ List.replicate 16 0)] ∧
    (List.replicate 11 (1000 : ℚ) ++ List.replicate 16 0).length = 27 := by
  decide

/-- C8: fragments "oi", "tudo", "bem?" arriving 200 ms apart under the
default debounce configuration are forwarded as exactly one merged
utterance "oi tudo bem?" (one intent-pipeline invocation); and in every
configuration and arrival sequence the debounce layer never forwards an
empty merged string. -/
theorem c8_debounce_coalescing :
    debounceRun defaultDebounceConfig c8Arrivals = ["oi tudo bem?"] ∧
    ∀ (cfg : DebounceConfig) (arrivals : List (ℚ × String)),
      (debounceRun cfg arrivals).contains "" = false := by
  constructor
  · decide
  · intro cfg arrivals
    cases hx : (debounceRun cfg arrivals).contains ""
    · rfl
    · exfalso
      have hmem : "" ∈ debounceRun cfg arrivals := List.elem_iff.mp hx
      exact no_empty_debounceRunFrom cfg arrivals ⟨[], none⟩ hmem

/-- Witness for `c10_interrupt_noop`: a concrete interrupt call with
nothing playing, past the cooldown window. -/
theorem c10_interrupt_noop_witness :
    c10Wit.tts_active = false ∧ c10Wit.engine_speaking = false ∧
    (onInterrupt c10Wit 10).2 ≠ InterruptResult.stopSpeaking :=
  ⟨rfl, rfl, c10_interrupt_noop c10Wit 10 rfl rfl⟩

end ConcreteRuns
